import Mathlib

/-!
Verification of the announcement delivery pipeline of
`back_end_process/voice_api.py`.

The Python module keeps a bounded `queue.Queue(maxsize=5)`, module-level
flags (`voice_active`, `last_announcement_time`, `current_voice_method`,
`available_methods`), an ordered chain of voice backends, a single worker
thread, and lifecycle functions.  We embed the module state as a structure,
each mutating function as a pure state transformer, and the interleaving of
producer calls and worker cycles as a labelled trace relation.

Time is modelled as `ℚ` (the code reads `time.time()` floats and compares
against the constant `announcement_cooldown = 1.5`).  A backend's
`speak(text)` call is environment-dependent; we model its outcome as
`Option Bool`, with `none` meaning the call never returns (e.g. pyttsx3's
`runAndWait` hanging), `some true` success, and `some false` failure or a
raised exception (the worker catches exceptions and moves on).
-/

namespace VoiceApi

/-- Announcement text, as a list of characters. -/
abbrev Msg := List Char

/-- Constant `announcement_cooldown = 1.5` (voice_api.py line 20). -/
def announcement_cooldown : ℚ := 3 / 2

/-- A voice backend: its `name`, the outcome of its `test()` probe in the
current environment, and the outcome of `speak(text)` for each text
(`none` = the call never returns). -/
structure VoiceMethod where
  name : Msg
  testResult : Bool
  speakFn : Msg → Option Bool

/-- The module-level mutable state of `voice_api.py`.  The queue holds
`Option Msg` items: `none` is the `None` shutdown sentinel pushed by
`stop_voice_system`, `some m` an announcement. -/
structure VoiceState where
  queue : List (Option Msg)
  voice_active : Bool
  last_announcement_time : ℚ
  current_voice_method : Option VoiceMethod
  available_methods : List VoiceMethod
  thread_alive : Bool
  spawn_count : Nat

/-- Python `str.lower()` (ASCII-relevant part used by the code). -/
def pyLower (s : Msg) : Msg := s.map Char.toLower

/-- Helper for `str.title()`: tracks whether the previous character was
alphabetic. -/
def pyTitleAux : Bool → Msg → Msg
  | _, [] => []
  | prevAlpha, c :: rest =>
    let c' := if c.isAlpha then (if prevAlpha then c.toLower else c.toUpper) else c
    c' :: pyTitleAux c.isAlpha rest

/-- Python `str.title()`. -/
def pyTitle (s : Msg) : Msg := pyTitleAux false s

/-- Message formatting in `speak_detection` (voice_api.py lines 348-353):
`"system"` and `"object"` object names pass the location through verbatim,
anything else becomes `"{object_name.title()} detected in {location}"`. -/
def formatMessage (object_name location : Msg) : Msg :=
  if pyLower object_name = "system".toList then location
  else if pyLower object_name = "object".toList then location
  else pyTitle object_name ++ " detected in ".toList ++ location

/-- Length limiting in `speak_detection` (voice_api.py lines 356-357):
`if len(message) > 60: message = message[:57] + "..."`. -/
def limitLength (m : Msg) : Msg :=
  if 60 < m.length then m.take 57 ++ ['.', '.', '.'] else m

/-- Python `queue.Queue(maxsize=5).put(x, block=False)`: succeeds iff the queue
holds fewer than 5 items, else raises `queue.Full` (modelled as `none`). -/
def put_nowait (q : List (Option Msg)) (x : Option Msg) :
    Option (List (Option Msg)) :=
  if q.length < 5 then some (q ++ [x]) else none

/-- Function `clear_queue()` (voice_api.py lines 304-315): drains every pending
item. -/
def clear_queue (_q : List (Option Msg)) : List (Option Msg) := []

/-- Function `speak_detection(object_name, location)` (voice_api.py lines 335-377)
as a state transformer returning the `queued` flag.  It returns `False`
early when `available_methods` is empty or the cooldown window is still
open; otherwise it formats and truncates the message, clears the queue
when `qsize() >= 3`, and inserts non-blockingly (clearing and retrying on
`queue.Full`). -/
def speak_detection (s : VoiceState) (now : ℚ) (object_name location : Msg) :
    Bool × VoiceState :=
  if s.available_methods.isEmpty then (false, s)
  else if now - s.last_announcement_time < announcement_cooldown then (false, s)
  else
    let message := limitLength (formatMessage object_name location)
    let q0 := if 3 ≤ s.queue.length then clear_queue s.queue else s.queue
    match put_nowait q0 (some message) with
    | some q1 => (true, { s with queue := q1 })
    | none =>
      match put_nowait (clear_queue q0) (some message) with
      | some q1 => (true, { s with queue := q1 })
      | none => (false, { s with queue := clear_queue q0 })

/-- The fallback loop of `voice_worker` (voice_api.py lines 242-256):
try each available method in order; `none` means the `speak` call never
returned (so the whole loop never returns), `some (some m)` means `m` was
the first method to succeed, `some none` means every method failed. -/
def tryMethods : List VoiceMethod → Msg → Option (Option VoiceMethod)
  | [], _ => some none
  | m :: rest, msg =>
    match m.speakFn msg with
    | none => none
    | some true => some (some m)
    | some false => tryMethods rest msg

/-- Events observed on a trace of the pipeline. -/
inductive Event where
  | enqueued (ok : Bool)
  | emptyPoll
  | workerExit
  | skippedCooldown (t : ℚ) (m : Msg)
  | delivered (t : ℚ) (m : Msg) (used : VoiceMethod)
  | allFailed (m : Msg)
  | cleared
  | started (ok : Bool)
  | stopped

/-- Whether an event is a successful delivery. -/
def Event.isDelivered : Event → Bool
  | .delivered _ _ _ => true
  | _ => false

/-- One cycle of `voice_worker` (voice_api.py lines 217-272) at wall-clock
time `now`: exit when the shutdown flag is cleared or the sentinel is
dequeued; poll; discard the message when inside the cooldown window;
otherwise run the fallback loop, and on success record the method and the
cycle's timestamp.  Result `none` means the cycle never returns (a backend
hung inside `speak`). -/
def worker_cycle (s : VoiceState) (now : ℚ) : Option (VoiceState × Event) :=
  if s.voice_active = false then
    some ({ s with thread_alive := false }, .workerExit)
  else
    match s.queue with
    | [] => some (s, .emptyPoll)
    | none :: rest => some ({ s with queue := rest, thread_alive := false }, .workerExit)
    | some msg :: rest =>
      if now - s.last_announcement_time < announcement_cooldown then
        some ({ s with queue := rest }, .skippedCooldown now msg)
      else
        match tryMethods s.available_methods msg with
        | none => none
        | some (some m) =>
          some ({ s with queue := rest, current_voice_method := some m,
                         last_announcement_time := now }, .delivered now msg m)
        | some none => some ({ s with queue := rest }, .allFailed msg)

/-- Environment for a startup probe: `test()` outcomes of the first three
backends, their `speak` behaviours, and whether the spawned worker thread
comes up alive.  `WebBrowserVoice.test` and `WebBrowserVoice.speak`
(voice_api.py lines 172-185) are unconditional successes, so they are not
parameters. -/
structure ProbeEnv where
  sapiTest : Bool
  edgeTest : Bool
  pyttsxTest : Bool
  sapiSpeak : Msg → Option Bool
  edgeSpeak : Msg → Option Bool
  pyttsxSpeak : Msg → Option Bool
  spawnOk : Bool

/-- The fixed priority-ordered candidate list built in
`initialize_voice_methods` (voice_api.py lines 193-198): Windows SAPI,
Edge TTS, Simple pyttsx3, then the always-available Web Browser
fallback. -/
def mkMethods (env : ProbeEnv) : List VoiceMethod :=
  [ ⟨"Windows SAPI".toList, env.sapiTest, env.sapiSpeak⟩,
    ⟨"Edge TTS".toList, env.edgeTest, env.edgeSpeak⟩,
    ⟨"Simple pyttsx3".toList, env.pyttsxTest, env.pyttsxSpeak⟩,
    ⟨"Web Browser".toList, true, fun _ => some true⟩ ]

/-- Function `initialize_voice_methods()` (voice_api.py lines 187-215): probe every
candidate, keep the available subset in order, select the first as
`current_voice_method` when nonempty (else leave it unchanged), and report
whether any backend is available. -/
def init_voice_methods (env : ProbeEnv) (oldCurrent : Option VoiceMethod) :
    Bool × List VoiceMethod × Option VoiceMethod :=
  let avail := (mkMethods env).filter (fun m => m.testResult)
  match avail with
  | [] => (false, [], oldCurrent)
  | m :: rest => (true, m :: rest, some m)

/-- Function `start_voice_system()` (voice_api.py lines 274-302): probe backends
(failing out if none is available), clear the queue, and spawn the worker
thread only when none is alive; report whether the thread is alive
afterwards. -/
def start_voice_system (s : VoiceState) (env : ProbeEnv) : Bool × VoiceState :=
  let r := init_voice_methods env s.current_voice_method
  let s1 := { s with available_methods := r.2.1, current_voice_method := r.2.2 }
  if r.1 = false then (false, s1)
  else
    let s2 := { s1 with queue := clear_queue s1.queue }
    if s2.thread_alive then (true, s2)
    else
      let s3 := { s2 with voice_active := true, spawn_count := s2.spawn_count + 1,
                          thread_alive := env.spawnOk }
      (env.spawnOk, s3)

/-- Function `stop_voice_system()` (voice_api.py lines 317-333): clear the shutdown
flag, drain the queue, and push the `None` sentinel (best effort). -/
def stop_voice_system (s : VoiceState) : VoiceState :=
  let s1 := { s with voice_active := false }
  let s2 := { s1 with queue := clear_queue s1.queue }
  match put_nowait s2.queue none with
  | some q => { s2 with queue := q }
  | none => s2

/-- Operations that may be interleaved on the shared state: a producer
enqueue, a worker cycle, an explicit clear, and the lifecycle calls. -/
inductive Op where
  | enqueue (now : ℚ) (object_name location : Msg)
  | worker (now : ℚ)
  | clear
  | start (env : ProbeEnv)
  | stop

/-- Small-step semantics: one operation applied to the shared state.
`none` means the operation never returns. -/
def step (s : VoiceState) : Op → Option (VoiceState × Event)
  | .enqueue now o l =>
    let r := speak_detection s now o l
    some (r.2, .enqueued r.1)
  | .worker now => worker_cycle s now
  | .clear => some ({ s with queue := clear_queue s.queue }, .cleared)
  | .start env =>
    let r := start_voice_system s env
    some (r.2, .started r.1)
  | .stop => some (stop_voice_system s, .stopped)

/-- A finite trace of completed operations with their observed events. -/
inductive Trace : VoiceState → List (Op × Event) → VoiceState → Prop
  | nil (s : VoiceState) : Trace s [] s
  | cons {s s' s'' : VoiceState} {op : Op} {ev : Event} {l : List (Op × Event)} :
      step s op = some (s', ev) → Trace s' l s'' →
      Trace s ((op, ev) :: l) s''

/-- The always-available browser fallback backend, as built by
`mkMethods`. -/
def webMethod : VoiceMethod :=
  ⟨"Web Browser".toList, true, fun _ => some true⟩

/-- A backend whose probe succeeded but whose every `speak` call fails. -/
def failingMethod : VoiceMethod :=
  ⟨"Windows SAPI".toList, true, fun _ => some false⟩

/-- A backend whose probe succeeded but whose `speak` call never returns
(pyttsx3's `runAndWait` hanging). -/
def hangingMethod : VoiceMethod :=
  ⟨"Simple pyttsx3".toList, true, fun _ => none⟩

/-! ### Demonstration states used by counterexamples and witnesses -/

/-- A live pipeline whose probe found no backend (empty chain). -/
def noBackendState : VoiceState :=
  { queue := [], voice_active := true, last_announcement_time := 0,
    current_voice_method := none, available_methods := [],
    thread_alive := true, spawn_count := 1 }

/-- A pipeline after `stop_voice_system` cleared the shutdown flag, with
the browser fallback still listed as available. -/
def stoppedState : VoiceState :=
  { queue := [], voice_active := false, last_announcement_time := 0,
    current_voice_method := some webMethod, available_methods := [webMethod],
    thread_alive := false, spawn_count := 1 }

/-- A running pipeline holding three pending announcements. -/
def saturatedState : VoiceState :=
  { queue := [some "a".toList, some "b".toList, some "c".toList],
    voice_active := true, last_announcement_time := 0,
    current_voice_method := some webMethod, available_methods := [webMethod],
    thread_alive := true, spawn_count := 1 }

/-- A live pipeline with the browser fallback and an empty queue. -/
def emptyState : VoiceState :=
  { queue := [], voice_active := true, last_announcement_time := 0,
    current_voice_method := none, available_methods := [webMethod],
    thread_alive := true, spawn_count := 1 }

/-- State `emptyState` right after a producer enqueued "person"/"left". -/
def enqueuedState : VoiceState :=
  { emptyState with
    queue := [some (limitLength (formatMessage "person".toList "left".toList))] }

/-- A live pipeline holding two pending announcements. -/
def twoMsgState : VoiceState :=
  { queue := [some "hi".toList, some "yo".toList], voice_active := true,
    last_announcement_time := 0, current_voice_method := none,
    available_methods := [webMethod], thread_alive := true, spawn_count := 1 }

/-- State `twoMsgState` after the worker delivered the first message at t = 10. -/
def midDeliver1 : VoiceState :=
  { twoMsgState with
    queue := [some "yo".toList],
    current_voice_method := some webMethod,
    last_announcement_time := 10 }

/-- State `midDeliver1` after the worker delivered the second message at t = 20. -/
def midDeliver2 : VoiceState :=
  { midDeliver1 with queue := [], last_announcement_time := 20 }

/-- A live pipeline whose chain starts with a backend that hangs inside
`speak`. -/
def hangState : VoiceState :=
  { queue := [some "hi".toList], voice_active := true,
    last_announcement_time := 0, current_voice_method := none,
    available_methods := [hangingMethod, webMethod],
    thread_alive := true, spawn_count := 1 }

/-- A live pipeline whose chain starts with a failing backend followed by
the browser fallback. -/
def fallbackState : VoiceState :=
  { queue := [some "hi".toList], voice_active := true,
    last_announcement_time := 0, current_voice_method := none,
    available_methods := [failingMethod, webMethod],
    thread_alive := true, spawn_count := 1 }

/-- State `fallbackState` after the worker delivered via the browser fallback
at t = 100. -/
def fallbackDelivered : VoiceState :=
  { fallbackState with
    queue := [],
    current_voice_method := some webMethod,
    last_announcement_time := 100 }

/-- A live pipeline whose chain is a failing backend, then a hanging
backend, then the browser fallback. -/
def hangChain3State : VoiceState :=
  { queue := [some "hi".toList], voice_active := true,
    last_announcement_time := 0, current_voice_method := none,
    available_methods := [failingMethod, hangingMethod, webMethod],
    thread_alive := true, spawn_count := 1 }

/-- A running pipeline (worker thread alive) with one pending message. -/
def runningState : VoiceState :=
  { queue := [some "hi".toList], voice_active := true,
    last_announcement_time := 0, current_voice_method := some webMethod,
    available_methods := [webMethod], thread_alive := true, spawn_count := 1 }

/-- A probe environment in which every backend probes available, the
first three fail every `speak` call, and thread spawning succeeds. -/
def demoEnv : ProbeEnv :=
  { sapiTest := true, edgeTest := true, pyttsxTest := true,
    sapiSpeak := fun _ => some false, edgeSpeak := fun _ => some false,
    pyttsxSpeak := fun _ => some false, spawnOk := true }

/-- A 70-character object name, longer than the 60-character limit. -/
def longName : Msg := List.replicate 70 'a'

/-! ### Helper lemmas -/

/-- The probe in `initialize_voice_methods` always keeps at least the
`WebBrowserVoice` fallback, whose `test()` returns `True`
unconditionally. -/
lemma probe_keeps_web (env : ProbeEnv) :
    (mkMethods env).filter (fun m => m.testResult) ≠ [] := by
  obtain ⟨t1, t2, t3, f1, f2, f3, sp⟩ := env
  cases t1 <;> cases t2 <;> cases t3 <;> simp [mkMethods, List.filter]

/-- The backend list selected by `init_voice_methods` is exactly the
filter of the candidate list by probe outcome. -/
lemma init_avail_eq (env : ProbeEnv) (oldCurrent : Option VoiceMethod) :
    (init_voice_methods env oldCurrent).2.1 =
      (mkMethods env).filter (fun m => m.testResult) := by
  unfold init_voice_methods
  rcases h : (mkMethods env).filter (fun m => m.testResult) with _ | ⟨m, rest⟩
  · simp [h]
  · simp [h]

/-- A successful non-blocking put appends the item and presupposes spare
capacity. -/
lemma put_nowait_some {q q' : List (Option Msg)} {x : Option Msg}
    (h : put_nowait q x = some q') : q.length < 5 ∧ q' = q ++ [x] := by
  unfold put_nowait at h
  split at h
  · exact ⟨by assumption, (Option.some.inj h).symm⟩
  · cases h

/-- Characterization of the success path of `speak_detection`: when the
backend list is nonempty and the cooldown window is closed, the call
queues the formatted, truncated message (clearing first when `qsize() >=
3`) and returns `True`. -/
lemma speak_detection_success (s : VoiceState) (now : ℚ) (o l : Msg)
    (h1 : s.available_methods.isEmpty = false)
    (h2 : ¬ now - s.last_announcement_time < announcement_cooldown) :
    speak_detection s now o l =
      (true, { s with queue :=
        (if 3 ≤ s.queue.length then ([] : List (Option Msg)) else s.queue)
          ++ [some (limitLength (formatMessage o l))] }) := by
  unfold speak_detection
  rw [h1]
  simp only [Bool.false_eq_true, if_false, if_neg h2]
  by_cases h3 : 3 ≤ s.queue.length
  · simp [h3, clear_queue, put_nowait]
  · have hlt : s.queue.length < 5 := by omega
    simp [h3, put_nowait, hlt]

/-- Lemma: `speak_detection` returns `False` exactly when the backend list is
empty or the cooldown window is still open. -/
lemma speak_detection_false_iff (s : VoiceState) (now : ℚ) (o l : Msg) :
    (speak_detection s now o l).1 = false ↔
      (s.available_methods.isEmpty = true ∨
        now - s.last_announcement_time < announcement_cooldown) := by
  by_cases h1 : s.available_methods.isEmpty
  · unfold speak_detection
    simp [h1]
  · by_cases h2 : now - s.last_announcement_time < announcement_cooldown
    · unfold speak_detection
      simp [h1, h2]
    · rw [speak_detection_success s now o l (by simpa using h1) h2]
      simp [h1, h2]

/-- Complete inversion of `worker_cycle`: a cycle that returns ended in
one of six ways (shutdown-flag exit, empty poll, sentinel exit, cooldown
skip, successful delivery, all backends failed). -/
lemma worker_cycle_inv {s s' : VoiceState} {ev : Event} {now : ℚ}
    (h : worker_cycle s now = some (s', ev)) :
    (s.voice_active = false ∧
      s' = { s with thread_alive := false } ∧ ev = .workerExit) ∨
    (s.voice_active = true ∧ s.queue = [] ∧ s' = s ∧ ev = .emptyPoll) ∨
    (∃ rest, s.voice_active = true ∧ s.queue = none :: rest ∧
      s' = { s with queue := rest, thread_alive := false } ∧ ev = .workerExit) ∨
    (∃ msg rest, s.voice_active = true ∧ s.queue = some msg :: rest ∧
      now - s.last_announcement_time < announcement_cooldown ∧
      s' = { s with queue := rest } ∧ ev = .skippedCooldown now msg) ∨
    (∃ msg rest m, s.voice_active = true ∧ s.queue = some msg :: rest ∧
      ¬ now - s.last_announcement_time < announcement_cooldown ∧
      tryMethods s.available_methods msg = some (some m) ∧
      s' = { s with queue := rest, current_voice_method := some m,
                    last_announcement_time := now } ∧
      ev = .delivered now msg m) ∨
    (∃ msg rest, s.voice_active = true ∧ s.queue = some msg :: rest ∧
      ¬ now - s.last_announcement_time < announcement_cooldown ∧
      tryMethods s.available_methods msg = some none ∧
      s' = { s with queue := rest } ∧ ev = .allFailed msg) := by
  unfold worker_cycle at h
  by_cases ha : s.voice_active = false
  · rw [if_pos ha] at h
    simp only [Option.some.injEq, Prod.mk.injEq] at h
    exact Or.inl ⟨ha, h.1.symm, h.2.symm⟩
  · rw [if_neg ha] at h
    have ha' : s.voice_active = true := by
      cases hb : s.voice_active
      · exact absurd hb ha
      · rfl
    rcases hq : s.queue with _ | ⟨hd, tl⟩
    · rw [hq] at h
      simp only [Option.some.injEq, Prod.mk.injEq] at h
      exact Or.inr (Or.inl ⟨ha', rfl, h.1.symm, h.2.symm⟩)
    · rw [hq] at h
      cases hd with
      | none =>
        simp only [Option.some.injEq, Prod.mk.injEq] at h
        exact Or.inr (Or.inr (Or.inl ⟨tl, ha', rfl, h.1.symm, h.2.symm⟩))
      | some msg =>
        simp only at h
        by_cases hc : now - s.last_announcement_time < announcement_cooldown
        · rw [if_pos hc] at h
          simp only [Option.some.injEq, Prod.mk.injEq] at h
          exact Or.inr (Or.inr (Or.inr (Or.inl
            ⟨msg, tl, ha', rfl, hc, h.1.symm, h.2.symm⟩)))
        · rw [if_neg hc] at h
          rcases htry : tryMethods s.available_methods msg with _ | ⟨_ | m⟩
          · rw [htry] at h
            cases h
          · rw [htry] at h
            simp only [Option.some.injEq, Prod.mk.injEq] at h
            exact Or.inr (Or.inr (Or.inr (Or.inr (Or.inr
              ⟨msg, tl, ha', rfl, hc, htry, h.1.symm, h.2.symm⟩))))
          · rw [htry] at h
            simp only [Option.some.injEq, Prod.mk.injEq] at h
            exact Or.inr (Or.inr (Or.inr (Or.inr (Or.inl
              ⟨msg, tl, m, ha', rfl, hc, htry, h.1.symm, h.2.symm⟩))))

/-- Lemma: `stop_voice_system` clears the shutdown flag, drains the queue, and
leaves only the sentinel. -/
lemma stop_voice_system_eq (s : VoiceState) :
    stop_voice_system s = { s with voice_active := false, queue := [none] } := by
  unfold stop_voice_system clear_queue put_nowait
  simp

/-- Lemma: `start_voice_system` never touches the cooldown clock. -/
lemma start_voice_system_last (s : VoiceState) (env : ProbeEnv) :
    (start_voice_system s env).2.last_announcement_time =
      s.last_announcement_time := by
  unfold start_voice_system
  dsimp only
  split_ifs <;> rfl

/-- After `start_voice_system` the queue is unchanged (probe-failure exit)
or cleared. -/
lemma start_voice_system_queue (s : VoiceState) (env : ProbeEnv) :
    (start_voice_system s env).2.queue = s.queue ∨
    (start_voice_system s env).2.queue = [] := by
  unfold start_voice_system clear_queue
  dsimp only
  split_ifs
  · exact Or.inl rfl
  · exact Or.inr rfl
  · exact Or.inr rfl

/-- Lemma: `speak_detection` never touches the cooldown clock (it only reads
it). -/
lemma speak_detection_last (s : VoiceState) (now : ℚ) (o l : Msg) :
    (speak_detection s now o l).2.last_announcement_time =
      s.last_announcement_time := by
  unfold speak_detection
  dsimp only
  split_ifs <;> try rfl
  all_goals split <;> try rfl

/-- Lemma: `speak_detection` keeps the queue within the capacity bound. -/
lemma speak_detection_queue_length (s : VoiceState) (now : ℚ) (o l : Msg)
    (h : s.queue.length ≤ 5) :
    (speak_detection s now o l).2.queue.length ≤ 5 := by
  by_cases h1 : s.available_methods.isEmpty
  · unfold speak_detection
    simp [h1, h]
  · by_cases h2 : now - s.last_announcement_time < announcement_cooldown
    · unfold speak_detection
      simp [h1, h2, h]
    · rw [speak_detection_success s now o l (by simpa using h1) h2]
      by_cases h3 : 3 ≤ s.queue.length
      · simp [h3]
      · simp only [h3, if_false, List.length_append, List.length_singleton]
        omega

/-- Every completed operation keeps the queue within the capacity
bound. -/
lemma step_queue_bound {s s' : VoiceState} {op : Op} {ev : Event}
    (h : step s op = some (s', ev)) (hq : s.queue.length ≤ 5) :
    s'.queue.length ≤ 5 := by
  cases op with
  | enqueue now o l =>
    simp only [step, Option.some.injEq, Prod.mk.injEq] at h
    rw [← h.1]
    exact speak_detection_queue_length s now o l hq
  | worker now =>
    simp only [step] at h
    rcases worker_cycle_inv h with
      ⟨_, rfl, _⟩ | ⟨_, _, rfl, _⟩ | ⟨rest, _, hq', rfl, _⟩ |
      ⟨msg, rest, _, hq', _, rfl, _⟩ | ⟨msg, rest, m, _, hq', _, _, rfl, _⟩ |
      ⟨msg, rest, _, hq', _, _, rfl, _⟩
    · exact hq
    · exact hq
    · rw [hq'] at hq
      simp only [List.length_cons] at hq
      simpa using Nat.le_succ_of_le (Nat.le_of_succ_le_succ hq)
    · rw [hq'] at hq
      simp only [List.length_cons] at hq
      simpa using Nat.le_succ_of_le (Nat.le_of_succ_le_succ hq)
    · rw [hq'] at hq
      simp only [List.length_cons] at hq
      simpa using Nat.le_succ_of_le (Nat.le_of_succ_le_succ hq)
    · rw [hq'] at hq
      simp only [List.length_cons] at hq
      simpa using Nat.le_succ_of_le (Nat.le_of_succ_le_succ hq)
  | clear =>
    simp only [step, Option.some.injEq, Prod.mk.injEq] at h
    rw [← h.1]
    simp [clear_queue]
  | start env =>
    simp only [step, Option.some.injEq, Prod.mk.injEq] at h
    rw [← h.1]
    rcases start_voice_system_queue s env with h' | h' <;> rw [h']
    · exact hq
    · simp
  | stop =>
    simp only [step, Option.some.injEq, Prod.mk.injEq] at h
    rw [← h.1, stop_voice_system_eq]
    simp

/-- The capacity invariant carries over whole traces. -/
lemma trace_queue_bound : ∀ {s0 sF : VoiceState} {l : List (Op × Event)},
    Trace s0 l sF → s0.queue.length ≤ 5 → sF.queue.length ≤ 5 := by
  intro s0 sF l htr
  induction htr with
  | nil => exact fun h => h
  | cons hstep _ ih => exact fun h0 => ih (step_queue_bound hstep h0)

/-- The truncated message never exceeds 60 characters. -/
lemma limitLength_length_le (m : Msg) : (limitLength m).length ≤ 60 := by
  unfold limitLength
  split_ifs with h
  · rw [List.length_append, List.length_take]
    have : min 57 m.length = 57 := Nat.min_eq_left (by omega)
    rw [this]
    rfl
  · omega

/-- Every item on the queue after an enqueue was already there or is the
freshly formatted, truncated message. -/
lemma speak_detection_queue_mem (s : VoiceState) (now : ℚ) (o l : Msg)
    {x : Option Msg} (hx : x ∈ (speak_detection s now o l).2.queue) :
    x ∈ s.queue ∨ x = some (limitLength (formatMessage o l)) := by
  by_cases h1 : s.available_methods.isEmpty
  · unfold speak_detection at hx
    rw [h1] at hx
    exact Or.inl (by simpa using hx)
  · by_cases h2 : now - s.last_announcement_time < announcement_cooldown
    · unfold speak_detection at hx
      rw [(by simpa using h1 : s.available_methods.isEmpty = false)] at hx
      simp only [Bool.false_eq_true, if_false, if_pos h2] at hx
      exact Or.inl hx
    · rw [speak_detection_success s now o l (by simpa using h1) h2] at hx
      simp only [List.mem_append] at hx
      rcases hx with hx | hx
      · split_ifs at hx with h3
        · simp at hx
        · exact Or.inl hx
      · exact Or.inr (by simpa using hx)

/-- A trace over an appended event list splits at the junction. -/
lemma trace_append {s s'' : VoiceState} {a b : List (Op × Event)}
    (h : Trace s (a ++ b) s'') : ∃ s', Trace s a s' ∧ Trace s' b s'' := by
  induction a generalizing s with
  | nil => exact ⟨s, Trace.nil s, h⟩
  | cons p rest ih =>
    obtain ⟨op, ev⟩ := p
    cases h with
    | cons hstep htail =>
      obtain ⟨mid, ha, hb⟩ := ih htail
      exact ⟨mid, Trace.cons hstep ha, hb⟩

/-- Inversion of a delivery step: it happened outside the cooldown
window, and it recorded the cycle timestamp and the successful method. -/
lemma step_delivered {s s' : VoiceState} {op : Op} {t : ℚ} {m : Msg}
    {u : VoiceMethod}
    (h : step s op = some (s', .delivered t m u)) :
    announcement_cooldown ≤ t - s.last_announcement_time ∧
    s'.last_announcement_time = t ∧
    s'.current_voice_method = some u := by
  cases op with
  | enqueue now o l =>
    simp only [step, Option.some.injEq, Prod.mk.injEq] at h
    exact absurd h.2 (by simp)
  | worker now =>
    simp only [step] at h
    rcases worker_cycle_inv h with
      ⟨_, _, hev⟩ | ⟨_, _, _, hev⟩ | ⟨rest, _, _, _, hev⟩ |
      ⟨msg, rest, _, _, _, _, hev⟩ | ⟨msg, rest, mm, _, _, hc, _, hs, hev⟩ |
      ⟨msg, rest, _, _, _, _, _, hev⟩
    · exact absurd hev (by simp)
    · exact absurd hev (by simp)
    · exact absurd hev (by simp)
    · exact absurd hev (by simp)
    · injection hev with ht hm hu
      subst ht
      subst hs
      exact ⟨not_lt.mp hc, rfl, by rw [hu]⟩
    · exact absurd hev (by simp)
  | clear =>
    simp only [step, Option.some.injEq, Prod.mk.injEq] at h
    exact absurd h.2 (by simp)
  | start env =>
    simp only [step, Option.some.injEq, Prod.mk.injEq] at h
    exact absurd h.2 (by simp)
  | stop =>
    simp only [step, Option.some.injEq, Prod.mk.injEq] at h
    exact absurd h.2 (by simp)

/-- Any completed non-delivery step leaves the cooldown clock alone. -/
lemma step_no_deliver_last {s s' : VoiceState} {op : Op} {ev : Event}
    (h : step s op = some (s', ev)) (hnd : ev.isDelivered = false) :
    s'.last_announcement_time = s.last_announcement_time := by
  cases op with
  | enqueue now o l =>
    simp only [step, Option.some.injEq, Prod.mk.injEq] at h
    rw [← h.1]
    exact speak_detection_last s now o l
  | worker now =>
    simp only [step] at h
    rcases worker_cycle_inv h with
      ⟨_, hs, _⟩ | ⟨_, _, hs, _⟩ | ⟨rest, _, _, hs, _⟩ |
      ⟨msg, rest, _, _, _, hs, _⟩ | ⟨msg, rest, mm, _, _, _, _, hs, hev⟩ |
      ⟨msg, rest, _, _, _, _, hs, _⟩
    · rw [hs]
    · rw [hs]
    · rw [hs]
    · rw [hs]
    · rw [hev] at hnd
      exact absurd hnd (by simp [Event.isDelivered])
    · rw [hs]
  | clear =>
    simp only [step, Option.some.injEq, Prod.mk.injEq] at h
    rw [← h.1]
  | start env =>
    simp only [step, Option.some.injEq, Prod.mk.injEq] at h
    rw [← h.1]
    exact start_voice_system_last s env
  | stop =>
    simp only [step, Option.some.injEq, Prod.mk.injEq] at h
    rw [← h.1, stop_voice_system_eq]

/-- A stretch of trace without deliveries preserves the cooldown
clock. -/
lemma trace_no_deliver_last : ∀ {s0 sF : VoiceState} {l : List (Op × Event)},
    Trace s0 l sF → (∀ p ∈ l, (p.2 : Event).isDelivered = false) →
    sF.last_announcement_time = s0.last_announcement_time := by
  intro s0 sF l htr
  induction htr with
  | nil => exact fun _ => rfl
  | cons hstep _ ih =>
    intro hall
    rw [ih (fun p hp => hall p (List.mem_cons_of_mem _ hp)),
      step_no_deliver_last hstep (hall _ (List.mem_cons_self _ _))]

/-- The fallback loop returns the first method in list order whose
`speak` succeeds; every earlier method was tried and failed. -/
lemma tryMethods_first_success : ∀ (ms : List VoiceMethod) (msg : Msg)
    (m : VoiceMethod), tryMethods ms msg = some (some m) →
    ∃ i : Fin ms.length, ms.get i = m ∧ m.speakFn msg = some true ∧
      ∀ j : Fin ms.length, (j : ℕ) < (i : ℕ) →
        (ms.get j).speakFn msg = some false := by
  intro ms
  induction ms with
  | nil =>
    intro msg m h
    simp [tryMethods] at h
  | cons m0 rest ih =>
    intro msg m h
    unfold tryMethods at h
    rcases hsp : m0.speakFn msg with _ | b
    · rw [hsp] at h
      cases h
    · rw [hsp] at h
      cases b with
      | true =>
        have hm : m0 = m := by simpa using h
        subst hm
        refine ⟨⟨0, by simp⟩, rfl, hsp, ?_⟩
        intro j hj
        simp at hj
      | false =>
        obtain ⟨i, hi, htrue, hbefore⟩ := ih msg m h
        refine ⟨⟨i.1 + 1, by simp [Nat.succ_lt_succ i.isLt]⟩,
          by simpa using hi, htrue, ?_⟩
        intro j hj
        rcases j with ⟨jv, hjlt⟩
        cases jv with
        | zero => simpa using hsp
        | succ k =>
          have hk : k < rest.length := by
            simpa using Nat.lt_of_succ_lt_succ hjlt
          simpa using hbefore ⟨k, hk⟩ (by simpa using Nat.lt_of_succ_lt_succ hj)

/-- The worker's fallback loop ignores `current_voice_method`: its
observable outcome is the same whatever the recorded current method is
(the next message always restarts from position 0). -/
lemma worker_ignores_current (s : VoiceState) (c : Option VoiceMethod)
    (now : ℚ) :
    Option.map Prod.snd (worker_cycle { s with current_voice_method := c } now)
      = Option.map Prod.snd (worker_cycle s now) := by
  unfold worker_cycle
  by_cases ha : s.voice_active = false
  · simp [ha]
  · rcases hq : s.queue with _ | ⟨_ | msg, tl⟩
    · simp [ha, hq]
    · simp [ha, hq]
    · by_cases hc : now - s.last_announcement_time < announcement_cooldown
      · simp [ha, hq, hc]
      · rcases htry : tryMethods s.available_methods msg with _ | ⟨_ | m⟩
        · simp [ha, hq, hc, htry]
        · simp [ha, hq, hc, htry]
        · simp [ha, hq, hc, htry]

/-- If every backend before `m` merely fails but `m`'s `speak` never
returns, the whole fallback loop never returns: nothing in the loop
bounds an individual `speak` call. -/
lemma tryMethods_hang : ∀ (pre : List VoiceMethod) (m : VoiceMethod)
    (post : List VoiceMethod) (msg : Msg),
    (∀ m' ∈ pre, m'.speakFn msg = some false) → m.speakFn msg = none →
    tryMethods (pre ++ m :: post) msg = none
  | [], m, post, msg, _, hm => by
    simp [tryMethods, hm]
  | p :: rest, m, post, msg, hpre, hm => by
    have hp : p.speakFn msg = some false := hpre p (List.mem_cons_self p rest)
    simp only [List.cons_append, tryMethods, hp]
    exact tryMethods_hang rest m post msg
      (fun m' hm' => hpre m' (List.mem_cons_of_mem p hm')) hm

/-! ### Claims -/

/-- C10: for every probe environment, `initialize_voice_methods` reports
success and builds a nonempty backend list, because the final
`WebBrowserVoice` fallback's probe unconditionally reports available: the
"empty chain" degraded mode is unreachable through the startup path. -/
theorem C10_init_never_empty (env : ProbeEnv) (oldCurrent : Option VoiceMethod) :
    (init_voice_methods env oldCurrent).1 = true ∧
    (init_voice_methods env oldCurrent).2.1 ≠ [] := by
  constructor
  · unfold init_voice_methods
    rcases h : (mkMethods env).filter (fun m => m.testResult) with _ | ⟨m, rest⟩
    · exact absurd h (probe_keeps_web env)
    · simp [h]
  · rw [init_avail_eq]
    exact probe_keeps_web env

/-- C1 counterexample: the claim "enqueue returns `queued = false` only
when the pipeline has been shut down, and returns `true` for an empty
backend chain or an active cooldown" is false on the code.  On a live
(not shut down) state with an empty backend chain `speak_detection`
returns `False`; conversely, on a shut-down state with a nonempty chain
it returns `True`, because `speak_detection` never inspects the shutdown
flag. -/
theorem C1_counterexample :
    (noBackendState.voice_active = true ∧
      (speak_detection noBackendState 100 "person".toList "left".toList).1 = false) ∧
    (stoppedState.voice_active = false ∧
      (speak_detection stoppedState 100 "person".toList "left".toList).1 = true) := by
  refine ⟨⟨rfl, rfl⟩, rfl, ?_⟩
  simp only [speak_detection, stoppedState, announcement_cooldown]
  norm_num
  rfl

/-- C1 (amended): `speak_detection` returns `queued = false` exactly when
the backend chain is empty or the cooldown window is still open; the
shutdown flag is never consulted, so shutdown alone does not make it
return `false`. -/
theorem C1_enqueue_false_iff (s : VoiceState) (now : ℚ) (o l : Msg) :
    (speak_detection s now o l).1 = false ↔
      (s.available_methods.isEmpty = true ∨
        now - s.last_announcement_time < announcement_cooldown) :=
  speak_detection_false_iff s now o l

/-- C3: a successful enqueue into a queue at or above the saturation
threshold (`qsize() >= 3`) first drains all pending items, so the queue
afterwards contains exactly the newly enqueued (formatted, truncated)
message. -/
theorem C3_saturation_clears (s : VoiceState) (now : ℚ) (o l : Msg)
    (hsat : 3 ≤ s.queue.length)
    (hok : (speak_detection s now o l).1 = true) :
    (speak_detection s now o l).2.queue =
      [some (limitLength (formatMessage o l))] := by
  have hnotfalse : ¬ ((speak_detection s now o l).1 = false) := by
    simp [hok]
  rw [speak_detection_false_iff] at hnotfalse
  push_neg at hnotfalse
  obtain ⟨h1, h2⟩ := hnotfalse
  rw [speak_detection_success s now o l (by simpa using h1) (not_lt.mpr h2)]
  simp [hsat]

/-- C3 witness: enqueueing into a live three-deep queue leaves exactly the
new message. -/
theorem C3_witness :
    3 ≤ saturatedState.queue.length ∧
    (speak_detection saturatedState 100 "person".toList "left".toList).1 = true ∧
    (speak_detection saturatedState 100 "person".toList "left".toList).2.queue =
      [some (limitLength (formatMessage "person".toList "left".toList))] := by
  have hok : (speak_detection saturatedState 100 "person".toList "left".toList).1 = true := by
    simp only [speak_detection, saturatedState, announcement_cooldown]
    norm_num
    rfl
  exact ⟨by decide, hok,
    C3_saturation_clears saturatedState 100 "person".toList "left".toList (by decide) hok⟩

/-- C2: over every interleaving of enqueue, worker (dequeue), clear and
lifecycle operations, the queue size stays between 0 and the capacity 5
inclusive. -/
theorem C2_queue_bound {s0 sF : VoiceState} {l : List (Op × Event)}
    (htr : Trace s0 l sF) (h0 : s0.queue.length ≤ 5) :
    0 ≤ sF.queue.length ∧ sF.queue.length ≤ 5 :=
  ⟨Nat.zero_le _, trace_queue_bound htr h0⟩

/-- C2 witness: a concrete enqueue-then-clear trace from the empty queue
stays within the bound. -/
theorem C2_witness :
    0 ≤ ({ enqueuedState with queue := [] } : VoiceState).queue.length ∧
    ({ enqueuedState with queue := [] } : VoiceState).queue.length ≤ 5 := by
  have h1 : step emptyState (.enqueue 100 "person".toList "left".toList) =
      some (enqueuedState, .enqueued true) := by
    simp only [step, Prod.mk.injEq]
    rw [speak_detection_success emptyState 100 "person".toList "left".toList rfl
      (by norm_num [emptyState, announcement_cooldown])]
    simp [emptyState, enqueuedState]
  have h2 : step enqueuedState .clear =
      some ({ enqueuedState with queue := [] }, .cleared) := rfl
  exact C2_queue_bound
    (Trace.cons h1 (Trace.cons h2 (Trace.nil _))) (by decide)

/-- C9: every announcement text placed on the queue is bounded: the
formatted message is truncated to its first 57 characters plus an
ellipsis when longer than 60 characters (total exactly 60), passed
through unchanged otherwise, and any item an enqueue adds to the queue is
that bounded text. -/
theorem C9_bounded_announcement (o l : Msg) (s : VoiceState) (now : ℚ)
    (x : Option Msg) :
    (limitLength (formatMessage o l)).length ≤ 60 ∧
    (60 < (formatMessage o l).length →
      limitLength (formatMessage o l) =
        (formatMessage o l).take 57 ++ ['.', '.', '.'] ∧
      (limitLength (formatMessage o l)).length = 60) ∧
    ((formatMessage o l).length ≤ 60 →
      limitLength (formatMessage o l) = formatMessage o l) ∧
    (x ∈ (speak_detection s now o l).2.queue →
      x ∈ s.queue ∨ x = some (limitLength (formatMessage o l))) := by
  refine ⟨limitLength_length_le _, fun hlong => ⟨?_, ?_⟩, fun hshort => ?_, ?_⟩
  · unfold limitLength
    rw [if_pos hlong]
  · unfold limitLength
    rw [if_pos hlong, List.length_append, List.length_take,
      Nat.min_eq_left (by omega)]
    rfl
  · unfold limitLength
    rw [if_neg (by omega)]
  · exact speak_detection_queue_mem s now o l

/-- C9 witness: a 70-character object name yields an 87-character
formatted message, truncated to exactly 60 characters ending in an
ellipsis, and an enqueue puts exactly that bounded text on the queue. -/
theorem C9_witness :
    (limitLength (formatMessage longName "left".toList) =
        (formatMessage longName "left".toList).take 57 ++ ['.', '.', '.'] ∧
      (limitLength (formatMessage longName "left".toList)).length = 60) ∧
    (some (limitLength (formatMessage longName "left".toList)) ∈
        saturatedState.queue ∨
      some (limitLength (formatMessage longName "left".toList)) =
        some (limitLength (formatMessage longName "left".toList))) := by
  have h := C9_bounded_announcement longName "left".toList saturatedState 100
    (some (limitLength (formatMessage longName "left".toList)))
  refine ⟨h.2.1 (by decide), h.2.2.2 ?_⟩
  rw [speak_detection_success saturatedState 100 longName "left".toList rfl
    (by norm_num [saturatedState, announcement_cooldown])]
  simp [saturatedState]

/-- C4: on any trace, two consecutive successful deliveries carry
timestamps `t1 < t2` with `t2 - t1` at least the cooldown interval: the
worker never attempts (and so never completes) a delivery sooner than
`announcement_cooldown` after the previous delivery's recorded time. -/
theorem C4_cooldown_spacing (s0 sF : VoiceState)
    (l1 l2 l3 : List (Op × Event)) (op1 op2 : Op)
    (t1 t2 : ℚ) (m1 m2 : Msg) (u1 u2 : VoiceMethod)
    (htr : Trace s0
      (l1 ++ (op1, .delivered t1 m1 u1) ::
        (l2 ++ (op2, .delivered t2 m2 u2) :: l3)) sF)
    (hmid : ∀ p ∈ l2, (p.2 : Event).isDelivered = false) :
    t1 < t2 ∧ announcement_cooldown ≤ t2 - t1 := by
  obtain ⟨a1, _, tr2⟩ := trace_append htr
  cases tr2 with
  | cons hstep1 htail =>
    obtain ⟨b1, trb1, trb2⟩ := trace_append htail
    cases trb2 with
    | cons hstep2 _ =>
      have h1 := step_delivered hstep1
      have hlast : b1.last_announcement_time = t1 := by
        rw [trace_no_deliver_last trb1 hmid, h1.2.1]
      have h2 := step_delivered hstep2
      rw [hlast] at h2
      have hcool : (0 : ℚ) < announcement_cooldown := by
        norm_num [announcement_cooldown]
      exact ⟨by linarith [h2.1], h2.1⟩

/-- C4 witness: a concrete trace delivering at t = 10 and t = 20 respects
the spacing bound. -/
theorem C4_witness : (10 : ℚ) < 20 ∧ announcement_cooldown ≤ 20 - 10 := by
  have h1 : step twoMsgState (.worker 10) =
      some (midDeliver1, .delivered 10 "hi".toList webMethod) := by
    simp only [step, worker_cycle, twoMsgState, midDeliver1, tryMethods,
      webMethod, announcement_cooldown]
    norm_num
  have h2 : step midDeliver1 (.worker 20) =
      some (midDeliver2, .delivered 20 "yo".toList webMethod) := by
    simp only [step, worker_cycle, twoMsgState, midDeliver1, midDeliver2,
      tryMethods, webMethod, announcement_cooldown]
    norm_num
  exact C4_cooldown_spacing twoMsgState midDeliver2 [] [] []
    (.worker 10) (.worker 20) 10 20 "hi".toList "yo".toList
    webMethod webMethod
    (Trace.cons h1 (Trace.cons h2 (Trace.nil _))) (by simp)

/-- C5: a message dequeued while the cooldown window is still open is
discarded: the worker's cycle removes it from the queue, emits only a
skip event (no delivery), and changes nothing else — in particular the
message is not requeued. -/
theorem C5_cooldown_discard (s : VoiceState) (now : ℚ) (m : Msg)
    (rest : List (Option Msg))
    (hactive : s.voice_active = true)
    (hq : s.queue = some m :: rest)
    (hcool : now - s.last_announcement_time < announcement_cooldown) :
    step s (.worker now) =
      some ({ s with queue := rest }, .skippedCooldown now m) := by
  simp only [step, worker_cycle, hactive, hq]
  simp [hcool]

/-- C6: the chain built at startup keeps exactly the backends whose probe
reported available, preserving the fixed priority order; delivery
iterates that list from position 0, the first success stops the
iteration, and the successful backend is recorded as
`current_voice_method`, which the worker itself never consults (status
reporting only). -/
theorem C6_chain_and_fallback_order (env : ProbeEnv)
    (oldCurrent : Option VoiceMethod) (ms : List VoiceMethod) (msg : Msg)
    (m : VoiceMethod) (s : VoiceState) (c : Option VoiceMethod) (now : ℚ) :
    ((init_voice_methods env oldCurrent).2.1.Sublist (mkMethods env) ∧
      (∀ m', m' ∈ (init_voice_methods env oldCurrent).2.1 ↔
        m' ∈ mkMethods env ∧ m'.testResult = true)) ∧
    (tryMethods ms msg = some (some m) →
      ∃ i : Fin ms.length, ms.get i = m ∧ m.speakFn msg = some true ∧
        ∀ j : Fin ms.length, (j : ℕ) < (i : ℕ) →
          (ms.get j).speakFn msg = some false) ∧
    (∀ s' t mm u, step s (.worker now) = some (s', .delivered t mm u) →
      s'.current_voice_method = some u) ∧
    (Option.map Prod.snd
        (step { s with current_voice_method := c } (.worker now))
      = Option.map Prod.snd (step s (.worker now))) := by
  refine ⟨⟨?_, ?_⟩, tryMethods_first_success ms msg m, ?_,
    worker_ignores_current s c now⟩
  · rw [init_avail_eq]
    exact List.filter_sublist _
  · intro m'
    rw [init_avail_eq, List.mem_filter]
  · intro s' t mm u h
    exact (step_delivered h).2.2

/-- C6 witness: with a failing first backend and the browser fallback
second, delivery uses the fallback (index 1), the first backend having
failed; the fallback is recorded as current, and the worker's outcome is
independent of the previously recorded current method. -/
theorem C6_witness :
    (init_voice_methods demoEnv none).2.1.Sublist (mkMethods demoEnv) ∧
    (∃ i : Fin ([failingMethod, webMethod] : List VoiceMethod).length,
      ([failingMethod, webMethod] : List VoiceMethod).get i = webMethod ∧
      webMethod.speakFn "hi".toList = some true ∧
      ∀ j : Fin ([failingMethod, webMethod] : List VoiceMethod).length,
        (j : ℕ) < (i : ℕ) →
        (([failingMethod, webMethod] : List VoiceMethod).get j).speakFn
          "hi".toList = some false) ∧
    fallbackDelivered.current_voice_method = some webMethod ∧
    Option.map Prod.snd
        (step { fallbackState with current_voice_method := some webMethod }
          (.worker 100))
      = Option.map Prod.snd (step fallbackState (.worker 100)) := by
  have h := C6_chain_and_fallback_order demoEnv none
    [failingMethod, webMethod] "hi".toList webMethod fallbackState
    (some webMethod) 100
  have hstep : step fallbackState (.worker 100) =
      some (fallbackDelivered, .delivered 100 "hi".toList webMethod) := by
    simp only [step, worker_cycle, fallbackState, fallbackDelivered,
      tryMethods, failingMethod, webMethod, announcement_cooldown]
    norm_num
  exact ⟨h.1.1, h.2.1 rfl,
    h.2.2.1 fallbackDelivered 100 "hi".toList webMethod hstep, h.2.2.2⟩

/-- C5 witness: inside the cooldown window (t = 11, last delivery at
t = 10) the worker discards the pending message. -/
theorem C5_witness :
    step midDeliver1 (.worker 11) =
      some ({ midDeliver1 with queue := [] }, .skippedCooldown 11 "yo".toList) :=
  C5_cooldown_discard midDeliver1 11 "yo".toList [] rfl rfl
    (by norm_num [midDeliver1, twoMsgState, announcement_cooldown])

/-- C7 counterexample: the claim that a hanging backend still lets
`attempt` return failure within a per-attempt timeout is false on the
code: with a chain headed by a backend whose `speak` never returns, the
fallback loop itself never returns (`none` in the model, i.e. it is not
`some` of any result) and the worker cycle never completes. -/
theorem C7_counterexample :
    tryMethods hangState.available_methods "hi".toList = none ∧
    tryMethods hangState.available_methods "hi".toList ≠ some none ∧
    worker_cycle hangState 100 = none := by
  refine ⟨rfl, by simp [hangState, tryMethods, hangingMethod], ?_⟩
  simp only [worker_cycle, hangState, tryMethods, hangingMethod,
    announcement_cooldown]
  norm_num

/-- C7 (amended): no per-attempt wall-clock deadline exists in the
worker: the worker calls each backend's `speak` directly, so if a
backend's `speak` never returns (every earlier backend having merely
failed), the chain's attempt never returns and the worker cycle hangs
instead of proceeding to the next message. -/
theorem C7_no_deadline (pre : List VoiceMethod) (m : VoiceMethod)
    (post : List VoiceMethod) (msg : Msg)
    (hpre : ∀ m' ∈ pre, m'.speakFn msg = some false)
    (hm : m.speakFn msg = none) :
    tryMethods (pre ++ m :: post) msg = none ∧
    ∀ s now rest, s.voice_active = true → s.queue = some msg :: rest →
      ¬ now - s.last_announcement_time < announcement_cooldown →
      s.available_methods = pre ++ m :: post →
      step s (.worker now) = none := by
  have hmain := tryMethods_hang pre m post msg hpre hm
  refine ⟨hmain, ?_⟩
  intro s now rest hactive hq hcool hms
  simp only [step, worker_cycle, hactive, hq]
  simp [hcool, hms, hmain]

/-- C7 witness: a failing backend followed by a hanging backend makes the
fallback loop, and the worker cycle, hang. -/
theorem C7_witness :
    tryMethods ([failingMethod] ++ hangingMethod :: [webMethod])
      "hi".toList = none ∧
    step hangChain3State (.worker 100) = none := by
  have h := C7_no_deadline [failingMethod] hangingMethod [webMethod]
    "hi".toList
    (fun m' hm' => by rw [List.mem_singleton.mp hm']; rfl) rfl
  exact ⟨h.1, h.2 hangChain3State 100 [] rfl rfl
    (by norm_num [hangChain3State, announcement_cooldown]) rfl⟩

/-- C8 counterexample: the claim that `start` on an already-running
pipeline has no side effects is false on the code: with the worker
thread alive, `start_voice_system` still returns `True` and spawns no
new thread, but it clears the pending queue and replaces the backend
chain with fresh probe results. -/
theorem C8_counterexample :
    runningState.thread_alive = true ∧
    (start_voice_system runningState demoEnv).1 = true ∧
    runningState.queue ≠ [] ∧
    (start_voice_system runningState demoEnv).2.queue = [] ∧
    runningState.available_methods.length = 1 ∧
    (start_voice_system runningState demoEnv).2.available_methods.length = 4 ∧
    (start_voice_system runningState demoEnv).2.spawn_count =
      runningState.spawn_count := by
  refine ⟨rfl, rfl, ?_, rfl, rfl, rfl, rfl⟩
  simp [runningState]

/-- C8 (amended): `start` on an already-running pipeline is idempotent
only in its return value and thread creation: it returns `true` and
spawns no second worker (thread state and spawn count unchanged), but it
re-probes the backends (overwriting `available_methods` and
`current_voice_method`) and clears the queue. -/
theorem C8_start_side_effects (s : VoiceState) (env : ProbeEnv)
    (halive : s.thread_alive = true) :
    start_voice_system s env =
      (true, { s with
        queue := [],
        available_methods := (mkMethods env).filter (fun m => m.testResult),
        current_voice_method :=
          ((mkMethods env).filter (fun m => m.testResult)).head? }) := by
  unfold start_voice_system init_voice_methods
  dsimp only
  rcases hav : (mkMethods env).filter (fun m => m.testResult) with _ | ⟨m, rest⟩
  · exact absurd hav (probe_keeps_web env)
  · simp [hav, halive, clear_queue]

/-- C8 witness: starting the already-running demo pipeline returns
`true`, keeps the thread and spawn count, clears the queue, and installs
freshly probed backends. -/
theorem C8_witness :
    runningState.thread_alive = true ∧
    start_voice_system runningState demoEnv =
      (true, { runningState with
        queue := [],
        available_methods := (mkMethods demoEnv).filter (fun m => m.testResult),
        current_voice_method :=
          ((mkMethods demoEnv).filter (fun m => m.testResult)).head? }) :=
  ⟨rfl, C8_start_side_effects runningState demoEnv rfl⟩

end VoiceApi
